import Mathlib

/-!
Verification development for the district behavioral-classification pipeline of the
uidai_hackathon dashboards (`insight_6.py`, `insight_7.py`).

Tables are shallowly embedded as lists of typed rows.  The pandas primitives used by
`load_and_process_data` — `groupby(...)[cols].sum()`, `merge(..., how='left'/'outer')`
followed by `fillna(0)` — are embedded as executable Lean functions on those lists.
Counts are `Nat`; ratio arithmetic (floats in the source) is modelled over `ℚ`.
-/

namespace Uidai

/-- Association-list lookup on the first component: the value a merge takes from the
right-hand (already grouped, hence key-unique) table for a given key. -/
def lookupKey {K V : Type} [DecidableEq K] (k : K) : List (K × V) → Option V
  | [] => none
  | p :: rest => if k = p.1 then some p.2 else lookupKey k rest

/-- One step of groupby-sum: accumulate value `v` under key `k` into the running
per-key table, adding to an existing entry or appending a fresh one. -/
def groupInsert {K V : Type} [DecidableEq K] [Add V] (k : K) (v : V) :
    List (K × V) → List (K × V)
  | [] => [(k, v)]
  | p :: rest => if p.1 = k then (p.1, p.2 + v) :: rest else p :: groupInsert k v rest

/-- Embedding of pandas `df.groupby(key)[col].sum().reset_index()`: fold the rows in
order, accumulating the per-key sums of `val`. -/
def groupBySum {K R V : Type} [DecidableEq K] [Add V] (key : R → K) (val : R → V)
    (rows : List R) : List (K × V) :=
  rows.foldl (fun acc r => groupInsert (key r) (val r) acc) []

/-- Reference sum: the sum of `val` over exactly the rows whose key equals `k`. -/
def sumKey {K R V : Type} [DecidableEq K] [AddCommMonoid V] (key : R → K) (val : R → V)
    (k : K) : List R → V
  | [] => 0
  | r :: rs => (if key r = k then val r else 0) + sumKey key val k rs

/-- Embedding of `pd.merge(a, b, on=key, how='outer').fillna(da/db)` for key-unique
inputs: keys of `a` keep their `a`-value and look up their `b`-value (default `db`),
and keys of `b` absent from `a` are appended with default `da`. -/
def outerMerge {K A B : Type} [DecidableEq K] (a : List (K × A)) (b : List (K × B))
    (da : A) (db : B) : List (K × A × B) :=
  a.map (fun p => (p.1, p.2, (lookupKey p.1 b).getD db)) ++
    (b.filter (fun p => (lookupKey p.1 a).isNone)).map (fun p => (p.1, da, p.2))

/-! Embedding of `insight_6.py` (Ghost Village Detector). -/

/-- Row of the enrolment CSVs used by insight_6. -/
structure EnrolRow where
  state : String
  district : String
  pincode : Nat
  age_0_5 : Nat
  age_5_17 : Nat
  age_18_greater : Nat
deriving DecidableEq

/-- Row of the biometric-update CSVs used by insight_6 (only the pincode key and the
two age-bucket counts are consumed). -/
structure BioRow where
  pincode : Nat
  bio_age_5_17 : Nat
  bio_age_17_ : Nat
deriving DecidableEq

/-- Row of the demographic-update CSVs used by insight_6. -/
structure DemoRow where
  pincode : Nat
  demo_age_5_17 : Nat
  demo_age_17_ : Nat
deriving DecidableEq

/-- Line 97: df_enrol['total_enrolments'] = age_0_5 + age_5_17 + age_18_greater. -/
def total_enrolments_of (r : EnrolRow) : Nat :=
  r.age_0_5 + r.age_5_17 + r.age_18_greater

/-- Line 101: groupby(['state','district','pincode'])['total_enrolments'].sum(). -/
def enrol_grouped (rows : List EnrolRow) : List ((String × String × Nat) × Nat) :=
  groupBySum (fun r => (r.state, r.district, r.pincode)) total_enrolments_of rows

/-- Lines 118 and 122: total_bio_updates = bio_age_5_17 + bio_age_17_, grouped and
summed by pincode alone. -/
def bio_grouped (rows : List BioRow) : List (Nat × Nat) :=
  groupBySum (fun r => r.pincode) (fun r => r.bio_age_5_17 + r.bio_age_17_) rows

/-- Lines 119 and 123: total_demo_updates grouped and summed by pincode alone. -/
def demo_grouped (rows : List DemoRow) : List (Nat × Nat) :=
  groupBySum (fun r => r.pincode) (fun r => r.demo_age_5_17 + r.demo_age_17_) rows

/-- Row of insight_6's master forensic table. -/
structure MasterRow6 where
  state : String
  district : String
  pincode : Nat
  total_enrolments : Nat
  total_bio_updates : Nat
  total_demo_updates : Nat
  total_updates : Nat
deriving DecidableEq

/-- Lines 126-130: master_df = merge(enrol_grouped, bio_grouped, on='pincode',
how='left').fillna(0), then the same with demo_grouped, then
total_updates = total_bio_updates + total_demo_updates.  The joins are LEFT joins on
the pincode column of the enrolment side: each enrolment key row looks up its update
sums (0 when the pincode is absent from the grouped update table, both of whose keys
are unique); pincodes present only in the update tables contribute no row. -/
def masterI6 (enrol : List EnrolRow) (bio : List BioRow) (demo : List DemoRow) :
    List MasterRow6 :=
  (enrol_grouped enrol).map (fun p =>
    let b := (lookupKey p.1.2.2 (bio_grouped bio)).getD 0
    let d := (lookupKey p.1.2.2 (demo_grouped demo)).getD 0
    ⟨p.1.1, p.1.2.1, p.1.2.2, p.2, b, d, b + d⟩)

/-- Line 160: df['update_ratio'] = total_updates / (total_enrolments + 1). -/
def update_ratio (r : MasterRow6) : ℚ :=
  (r.total_updates : ℚ) / ((r.total_enrolments : ℚ) + 1)

/-- Master row together with the cluster id produced by fit_predict. -/
structure ClusteredRow where
  row : MasterRow6
  cluster : Nat
deriving DecidableEq

/-- Distinct cluster ids occurring in the clustered table. -/
def clusterIds (rows : List ClusteredRow) : List Nat :=
  (rows.map (fun r => r.cluster)).dedup

/-- Line 162: the mean update_ratio of the rows of cluster c
(df.groupby('cluster')['update_ratio'].mean()). -/
def clusterMean (rows : List ClusteredRow) (c : Nat) : ℚ :=
  let members := rows.filter (fun r => r.cluster == c)
  (members.map (fun r => update_ratio r.row)).sum / (members.length : ℚ)

/-- Ordering used to embed cluster_stats.sort_values(): ascending mean, with ties
broken by ascending cluster id (a deterministic refinement of the library sort; the
claims below only concern strictly ordered means). -/
def clusterRel (rows : List ClusteredRow) (c d : Nat) : Prop :=
  clusterMean rows c < clusterMean rows d ∨
    (clusterMean rows c = clusterMean rows d ∧ c ≤ d)

instance (rows : List ClusteredRow) : DecidableRel (clusterRel rows) := fun _ _ => by
  unfold clusterRel
  infer_instance

instance (rows : List ClusteredRow) : IsTotal Nat (clusterRel rows) where
  total c d := by
    rcases lt_trichotomy (clusterMean rows c) (clusterMean rows d) with h | h | h
    · exact Or.inl (Or.inl h)
    · rcases Nat.le_total c d with hle | hle
      · exact Or.inl (Or.inr ⟨h, hle⟩)
      · exact Or.inr (Or.inr ⟨h.symm, hle⟩)
    · exact Or.inr (Or.inl h)

instance (rows : List ClusteredRow) : IsTrans Nat (clusterRel rows) where
  trans c d e hcd hde := by
    rcases hcd with h1 | ⟨h1, h1le⟩
    · rcases hde with h2 | ⟨h2, _⟩
      · exact Or.inl (h1.trans h2)
      · exact Or.inl (h2 ▸ h1)
    · rcases hde with h2 | ⟨h2, h2le⟩
      · exact Or.inl (h1 ▸ h2)
      · exact Or.inr ⟨h1.trans h2, h1le.trans h2le⟩

/-- Cluster ids sorted by ascending mean update_ratio (cluster_stats.sort_values()). -/
def sortedClusters (rows : List ClusteredRow) : List Nat :=
  List.insertionSort (clusterRel rows) (clusterIds rows)

/-- Configured label ordering of lines 165-169: index 0 is given to the lowest-mean
cluster, index 2 to the highest-mean cluster. -/
def riskLabels : List String :=
  ["High Risk (Ghost Village)", "Medium Risk (Monitor)", "Low Risk (Normal Activity)"]

/-- Lines 165-169: risk_mapping = {cluster_stats.index[i] ↦ riskLabels[i]}. -/
def risk_mapping (rows : List ClusteredRow) : List (Nat × String) :=
  (sortedClusters rows).zip riskLabels

/-- Line 171: df['Risk_Profile'] = df['cluster'].map(risk_mapping). -/
def riskOf (rows : List ClusteredRow) (c : Nat) : String :=
  (lookupKey c (risk_mapping rows)).getD "Unlabeled"

/-- Position of a label within a label-ordering list (length of the list if absent). -/
def posIn (s : String) : List String → Nat
  | [] => 0
  | t :: ts => if s = t then 0 else posIn s ts + 1

/-- Position of a label in the configured ordering riskLabels. -/
def labelPos (s : String) : Nat := posIn s riskLabels

/-- Output row of perform_cluster_analysis; the fallback branch of main produces rows
without cluster/update_ratio columns, hence the Option fields. -/
structure AnalyzedRow where
  row : MasterRow6
  cluster : Option Nat
  ratio : Option ℚ
  Risk_Profile : String
deriving DecidableEq

/-- Seed actually used by KMeans(n_clusters, random_state, n_init=10): the given
random_state when present, otherwise ambient entropy. -/
def kmeansSeed (random_state : Option Nat) (entropy : Nat) : Nat :=
  random_state.getD entropy

/-- Lines 139-172: perform_cluster_analysis.  `kmeans` stands for the opaque but
deterministic library composite StandardScaler().fit_transform followed by
KMeans(...).fit_predict — a pure function of the seed and the raw feature pairs
(total_enrolments, total_updates); the scaler is deterministic and seedless.  The
source fixes random_state = 42; `entropy` models the ambient randomness the library
would fall back to were no random_state given. -/
def perform_cluster_analysis (kmeans : Nat → List (ℚ × ℚ) → List Nat) (entropy : Nat)
    (df : List MasterRow6) : List AnalyzedRow :=
  if df.isEmpty then [] else
    let feats := df.map (fun r => ((r.total_enrolments : ℚ), (r.total_updates : ℚ)))
    let assignments := kmeans (kmeansSeed (some 42) entropy) feats
    let clustered := List.zipWith (fun r c => ClusteredRow.mk r c) df assignments
    clustered.map (fun cr =>
      ⟨cr.row, some cr.cluster, some (update_ratio cr.row), riskOf clustered cr.cluster⟩)

/-- Lines 230-236 of main: run the clustering only when the filtered table has more
than 5 rows, otherwise give every row the sentinel Risk_Profile. -/
def runAnalytics (kmeans : Nat → List (ℚ × ℚ) → List Nat) (entropy : Nat)
    (df_filtered : List MasterRow6) : List AnalyzedRow :=
  if 5 < df_filtered.length then perform_cluster_analysis kmeans entropy df_filtered
  else df_filtered.map (fun r => ⟨r, none, none, "Insufficient Data for ML"⟩)

/-- Concatenated contents of insight_6's three CSV groups; `none` models a
FileNotFoundError raised while reading. -/
structure CsvSources6 where
  enrolData : Option (List EnrolRow)
  bioData : Option (List BioRow)
  demoData : Option (List DemoRow)

/-- Lines 87-136: load_and_process_data of insight_6.  On any FileNotFoundError it
displays an error message (the Bool flag) and returns an empty table. -/
def load_and_process_data6 (s : CsvSources6) : List MasterRow6 × Bool :=
  match s.enrolData, s.bioData, s.demoData with
  | some e, some b, some d => (masterI6 e b d, false)
  | _, _, _ => ([], true)

/-! Embedding of `insight_7.py` (Identity Anxiety Spectrum). -/

/-- Row of the biometric CSVs used by insight_7 (state/district already cleaned by
the title-case standardization of lines 131-138). -/
structure BioRow7 where
  state : String
  district : String
  bio_age_5_17 : Nat
  bio_age_17_ : Nat
deriving DecidableEq

/-- Row of the demographic CSVs used by insight_7. -/
structure DemoRow7 where
  state : String
  district : String
  demo_age_5_17 : Nat
  demo_age_17_ : Nat
deriving DecidableEq

/-- Row of the enrolment CSVs used by insight_7. -/
structure EnrolRow7 where
  state : String
  district : String
  age_18_greater : Nat
deriving DecidableEq

/-- Line 143: groupby(['state','district'])[['bio_age_17_','bio_age_5_17']].sum(). -/
def bio_grp (rows : List BioRow7) : List ((String × String) × (Nat × Nat)) :=
  groupBySum (fun r => (r.state, r.district))
    (fun r => (r.bio_age_17_, r.bio_age_5_17)) rows

/-- Line 149: groupby(['state','district'])[['demo_age_17_','demo_age_5_17']].sum(). -/
def demo_grp (rows : List DemoRow7) : List ((String × String) × (Nat × Nat)) :=
  groupBySum (fun r => (r.state, r.district))
    (fun r => (r.demo_age_17_, r.demo_age_5_17)) rows

/-- Line 155: groupby(['state','district'])[['age_18_greater']].sum(). -/
def enrol_grp (rows : List EnrolRow7) : List ((String × String) × Nat) :=
  groupBySum (fun r => (r.state, r.district)) (fun r => r.age_18_greater) rows

/-- Line 171: master['bio_age_17_'].replace(0, 1). -/
def replace0With1 (n : Nat) : Nat := if n = 0 then 1 else n

/-- Lines 177-184: classify_district, applied to row['DBDI']. -/
def classify_district (ratio : ℚ) : String :=
  if ratio > 5 / 2 then "Cluster A: Hyper-Correction (Identity Anxiety)"
  else if ratio < 1 / 5 then "Cluster B: Digital Dormancy (Passive Compliance)"
  else "Cluster C: Balanced Economy"

/-- Row of insight_7's master table (bio_age_17_ holds the post-replace value, as in
the source, where the replace overwrites the column in place). -/
structure MasterRow7 where
  state : String
  district : String
  bio_age_17_ : Nat
  bio_age_5_17 : Nat
  demo_age_17_ : Nat
  demo_age_5_17 : Nat
  age_18_greater : Nat
  DBDI : ℚ
  Total_Activity : Nat
  Cluster : String
deriving DecidableEq

/-- Lines 160-161: the two outer merges with fillna(0), before the DBDI block. -/
def merged7 (bio : List BioRow7) (demo : List DemoRow7) (enrol : List EnrolRow7) :
    List ((String × String) × ((Nat × Nat) × (Nat × Nat)) × Nat) :=
  outerMerge (outerMerge (bio_grp bio) (demo_grp demo) (0, 0) (0, 0))
    (enrol_grp enrol) ((0, 0), (0, 0)) 0

/-- Lines 160-186: the master table, with the zero-denominator replace, the DBDI
ratio, Total_Activity, and the Cluster label. -/
def master7 (bio : List BioRow7) (demo : List DemoRow7) (enrol : List EnrolRow7) :
    List MasterRow7 :=
  (merged7 bio demo enrol).map (fun p =>
    let bio17 := replace0With1 p.2.1.1.1
    let dbdi : ℚ := (p.2.1.2.1 : ℚ) / (bio17 : ℚ)
    ⟨p.1.1, p.1.2, bio17, p.2.1.1.2, p.2.1.2.1, p.2.1.2.2, p.2.2, dbdi,
      p.2.1.2.1 + bio17, classify_district dbdi⟩)

/-- Lines 120-124: safe_read of insight_7 — a missing file (none) is read as an
empty table, indistinguishable from a present-but-empty file. -/
def safe_read {R : Type} (fs : String → Option (List R)) (f : String) : List R :=
  (fs f).getD []

/-! Concrete rows used by witness theorems. -/

/-- Witness master row for insight_7: district with 7 adult demographic updates and
no biometric rows. -/
def w7rowA : MasterRow7 :=
  ⟨"S", "D", 1, 0, 7, 0, 0, (7 : ℚ), 8, "Cluster A: Hyper-Correction (Identity Anxiety)"⟩

/-- Witness master row for insight_7: district with only 5 adult enrolments. -/
def w7rowB : MasterRow7 :=
  ⟨"S", "D", 1, 0, 0, 0, 5, (0 : ℚ), 1, "Cluster B: Digital Dormancy (Passive Compliance)"⟩

/-- Witness master row for insight_7: district with biometric activity only. -/
def w7rowC : MasterRow7 :=
  ⟨"S", "D", 2, 1, 0, 0, 0, (0 : ℚ), 2, "Cluster B: Digital Dormancy (Passive Compliance)"⟩

/-- Witness master row for insight_7: district whose summed adult biometric count is
zero, demonstrating the replace(0,1) overwrite. -/
def w7rowD : MasterRow7 :=
  ⟨"S", "D", 1, 4, 6, 0, 0, (6 : ℚ), 7, "Cluster A: Hyper-Correction (Identity Anxiety)"⟩

/-- Witness clustered table for the labeling claim: three singleton clusters with
update_ratio means 0, 1 and 3. -/
def w1rows : List ClusteredRow :=
  [⟨⟨"S", "D", 1, 9, 0, 0, 0⟩, 0⟩, ⟨⟨"S", "D", 2, 9, 5, 5, 10⟩, 1⟩,
    ⟨⟨"S", "D", 3, 9, 15, 15, 30⟩, 2⟩]

end Uidai

namespace Uidai

section TableLemmas

variable {K R V : Type} [DecidableEq K]

theorem lookupKey_isSome_iff {l : List (K × V)} {k : K} :
    (lookupKey k l).isSome ↔ k ∈ l.map Prod.fst := by
  induction l with
  | nil => simp [lookupKey]
  | cons p rest ih =>
    by_cases h : k = p.1
    · simp [lookupKey, h]
    · simp [lookupKey, h, ih]

theorem lookupKey_eq_none_iff {l : List (K × V)} {k : K} :
    lookupKey k l = none ↔ k ∉ l.map Prod.fst := by
  rw [← lookupKey_isSome_iff, Option.isSome_iff_ne_none]
  tauto

theorem mem_iff_lookupKey_of_nodup {l : List (K × V)} (hnd : (l.map Prod.fst).Nodup)
    {k : K} {v : V} : (k, v) ∈ l ↔ lookupKey k l = some v := by
  induction l with
  | nil => simp [lookupKey]
  | cons p rest ih =>
    obtain ⟨pk, pv⟩ := p
    simp only [List.map_cons, List.nodup_cons] at hnd
    by_cases h : k = pk
    · subst h
      simp only [lookupKey, if_pos rfl, List.mem_cons]
      constructor
      · rintro (heq | hmem)
        · exact congrArg some (congrArg Prod.snd heq).symm
        · exact absurd (List.mem_map_of_mem Prod.fst hmem) hnd.1
      · intro hv
        injection hv with hv2
        exact Or.inl (by rw [← hv2])
    · simp only [lookupKey, if_neg h, List.mem_cons]
      rw [← ih hnd.2]
      constructor
      · rintro (heq | hmem)
        · exact absurd (congrArg Prod.fst heq) h
        · exact hmem
      · intro hmem
        right
        exact hmem

theorem mem_keys_groupInsert [Add V] {acc : List (K × V)} {k x : K} {v : V} :
    x ∈ (groupInsert k v acc).map Prod.fst ↔ x ∈ acc.map Prod.fst ∨ x = k := by
  induction acc with
  | nil => simp [groupInsert]
  | cons p rest ih =>
    by_cases h : p.1 = k
    · simp only [groupInsert, if_pos h, List.map_cons, List.mem_cons]
      constructor
      · rintro (rfl | hmem)
        · exact Or.inl (Or.inl rfl)
        · exact Or.inl (Or.inr hmem)
      · rintro ((rfl | hmem) | rfl)
        · exact Or.inl rfl
        · exact Or.inr hmem
        · exact Or.inl h.symm
    · simp only [groupInsert, if_neg h, List.map_cons, List.mem_cons, ih]
      tauto

theorem nodup_keys_groupInsert [Add V] {acc : List (K × V)} {k : K} {v : V}
    (hnd : (acc.map Prod.fst).Nodup) : ((groupInsert k v acc).map Prod.fst).Nodup := by
  induction acc with
  | nil => simp [groupInsert]
  | cons p rest ih =>
    simp only [List.map_cons, List.nodup_cons] at hnd
    by_cases h : p.1 = k
    · simp only [groupInsert, if_pos h, List.map_cons, List.nodup_cons]
      exact ⟨hnd.1, hnd.2⟩
    · simp only [groupInsert, if_neg h, List.map_cons, List.nodup_cons]
      refine ⟨?_, ih hnd.2⟩
      rw [mem_keys_groupInsert]
      rintro (hmem | rfl)
      · exact hnd.1 hmem
      · exact h rfl

theorem lookupKey_groupInsert [AddCommMonoid V] (k k' : K) (v : V) (acc : List (K × V)) :
    lookupKey k (groupInsert k' v acc) =
      if k = k' then some ((lookupKey k acc).getD 0 + v) else lookupKey k acc := by
  induction acc with
  | nil =>
    by_cases h : k = k'
    · simp [groupInsert, lookupKey, h]
    · simp [groupInsert, lookupKey, h]
  | cons p rest ih =>
    by_cases hp : p.1 = k'
    · by_cases hk : k = p.1
      · subst hk
        simp [groupInsert, lookupKey, hp]
      · have hkk : ¬ k = k' := fun h => hk (h.trans hp.symm)
        simp [groupInsert, lookupKey, hp, hk, hkk]
    · by_cases hk : k = p.1
      · have hkk : ¬ k = k' := fun h => hp ((hk.symm.trans h).symm ▸ rfl)
        subst hk
        simp [groupInsert, lookupKey, hp, hkk]
      · simp [groupInsert, lookupKey, hp, hk, ih]

theorem lookupKey_foldl_some [AddCommMonoid V] (key : R → K) (val : R → V)
    (rows : List R) (k : K) :
    ∀ (acc : List (K × V)) (v : V), lookupKey k acc = some v →
      lookupKey k (rows.foldl (fun a r => groupInsert (key r) (val r) a) acc) =
        some (v + sumKey key val k rows) := by
  induction rows with
  | nil =>
    intro acc v hv
    simpa [sumKey] using hv
  | cons r rs ih =>
    intro acc v hv
    simp only [List.foldl_cons]
    by_cases h : k = key r
    · have hstep : lookupKey k (groupInsert (key r) (val r) acc) = some (v + val r) := by
        rw [lookupKey_groupInsert, if_pos h, hv]
        rfl
      rw [ih _ _ hstep, sumKey, if_pos h.symm, add_assoc]
    · have hstep : lookupKey k (groupInsert (key r) (val r) acc) = some v := by
        rw [lookupKey_groupInsert, if_neg h, hv]
      rw [ih _ _ hstep, sumKey, if_neg (fun hc => h hc.symm), zero_add]

theorem lookupKey_foldl_none [AddCommMonoid V] (key : R → K) (val : R → V)
    (rows : List R) (k : K) :
    ∀ acc : List (K × V), lookupKey k acc = none →
      lookupKey k (rows.foldl (fun a r => groupInsert (key r) (val r) a) acc) =
        if k ∈ rows.map key then some (sumKey key val k rows) else none := by
  induction rows with
  | nil =>
    intro acc hv
    simpa using hv
  | cons r rs ih =>
    intro acc hv
    simp only [List.foldl_cons]
    by_cases h : k = key r
    · have hstep : lookupKey k (groupInsert (key r) (val r) acc) = some (0 + val r) := by
        rw [lookupKey_groupInsert, if_pos h, hv]
        rfl
      rw [lookupKey_foldl_some key val rs k _ _ hstep]
      simp only [List.map_cons, List.mem_cons, sumKey, if_pos h.symm, zero_add]
      simp [h]
    · have hstep : lookupKey k (groupInsert (key r) (val r) acc) = none := by
        rw [lookupKey_groupInsert, if_neg h, hv]
      have h' : ¬ key r = k := fun hc => h hc.symm
      rw [ih _ hstep]
      simp only [List.map_cons, List.mem_cons, sumKey, if_neg h', zero_add]
      by_cases hk : k ∈ List.map key rs
      · simp [hk]
      · simp [hk, h]

theorem lookupKey_groupBySum [AddCommMonoid V] (key : R → K) (val : R → V)
    (rows : List R) (k : K) :
    lookupKey k (groupBySum key val rows) =
      if k ∈ rows.map key then some (sumKey key val k rows) else none :=
  lookupKey_foldl_none key val rows k [] rfl

theorem nodup_keys_foldl [AddCommMonoid V] (key : R → K) (val : R → V) (rows : List R) :
    ∀ acc : List (K × V), (acc.map Prod.fst).Nodup →
      ((rows.foldl (fun a r => groupInsert (key r) (val r) a) acc).map Prod.fst).Nodup := by
  induction rows with
  | nil =>
    intro acc h
    simpa using h
  | cons r rs ih =>
    intro acc h
    simp only [List.foldl_cons]
    exact ih _ (nodup_keys_groupInsert h)

theorem nodup_keys_groupBySum [AddCommMonoid V] (key : R → K) (val : R → V)
    (rows : List R) : ((groupBySum key val rows).map Prod.fst).Nodup :=
  nodup_keys_foldl key val rows [] (by simp)

theorem mem_keys_groupBySum [AddCommMonoid V] (key : R → K) (val : R → V)
    (rows : List R) (k : K) :
    k ∈ (groupBySum key val rows).map Prod.fst ↔ k ∈ rows.map key := by
  rw [← lookupKey_isSome_iff, lookupKey_groupBySum]
  by_cases h : k ∈ rows.map key
  · simp [h]
  · simp [h]

theorem mem_groupBySum_eq_sumKey [AddCommMonoid V] {key : R → K} {val : R → V}
    {rows : List R} {k : K} {v : V} (h : (k, v) ∈ groupBySum key val rows) :
    v = sumKey key val k rows := by
  rw [mem_iff_lookupKey_of_nodup (nodup_keys_groupBySum key val rows),
    lookupKey_groupBySum] at h
  by_cases hk : k ∈ rows.map key
  · rw [if_pos hk] at h
    exact (Option.some.injEq _ _ ▸ h).symm
  · rw [if_neg hk] at h
    exact absurd h (by simp)

theorem mem_keys_outerMerge {A B : Type} (a : List (K × A)) (b : List (K × B))
    (da : A) (db : B) (k : K) :
    k ∈ (outerMerge a b da db).map Prod.fst ↔
      k ∈ a.map Prod.fst ∨ k ∈ b.map Prod.fst := by
  simp only [outerMerge, List.map_append, List.mem_append, List.map_map]
  constructor
  · rintro (h | h)
    · left
      obtain ⟨p, hp, hpk⟩ := List.mem_map.mp h
      exact hpk ▸ List.mem_map_of_mem Prod.fst hp
    · right
      obtain ⟨p, hp, hpk⟩ := List.mem_map.mp h
      exact hpk ▸ List.mem_map_of_mem Prod.fst (List.mem_of_mem_filter hp)
  · intro h
    by_cases ha : k ∈ a.map Prod.fst
    · left
      obtain ⟨p, hp, hpk⟩ := List.mem_map.mp ha
      exact List.mem_map.mpr ⟨p, hp, hpk⟩
    · right
      rcases h with h | h
      · exact absurd h ha
      · obtain ⟨p, hp, hpk⟩ := List.mem_map.mp h
        refine List.mem_map.mpr ⟨p, List.mem_filter.mpr ⟨hp, ?_⟩, hpk⟩
        have : lookupKey p.1 a = none := by
          rw [lookupKey_eq_none_iff, hpk]
          exact ha
        simp [this]

theorem outerMerge_fill {A B : Type} (a : List (K × A)) (b : List (K × B))
    (da : A) (db : B) {p : K × A × B} (hp : p ∈ outerMerge a b da db) :
    (p.1 ∉ b.map Prod.fst → p.2.2 = db) ∧ (p.1 ∉ a.map Prod.fst → p.2.1 = da) := by
  simp only [outerMerge, List.mem_append] at hp
  rcases hp with h | h
  · obtain ⟨q, hq, hqe⟩ := List.mem_map.mp h
    subst hqe
    constructor
    · intro hnb
      have : lookupKey q.1 b = none := lookupKey_eq_none_iff.mpr hnb
      simp [this]
    · intro hna
      exact absurd (List.mem_map_of_mem Prod.fst hq) hna
  · obtain ⟨q, hq, hqe⟩ := List.mem_map.mp h
    subst hqe
    constructor
    · intro hnb
      exact absurd (List.mem_map_of_mem Prod.fst (List.mem_of_mem_filter hq)) hnb
    · intro _
      rfl

end TableLemmas

theorem sumKey_pair_fst {K R : Type} [DecidableEq K] (key : R → K) (f g : R → Nat)
    (k : K) (rows : List R) :
    (sumKey key (fun r => (f r, g r)) k rows).1 = sumKey key f k rows := by
  induction rows with
  | nil => rfl
  | cons r rs ih =>
    by_cases h : key r = k
    · simp only [sumKey, if_pos h, Prod.fst_add, ih]
    · simp only [sumKey, if_neg h, Prod.fst_add, ih]
      rfl

theorem mem_outerMerge_cases {K A B : Type} [DecidableEq K] (a : List (K × A))
    (b : List (K × B)) (da : A) (db : B) {p : K × A × B}
    (hp : p ∈ outerMerge a b da db) :
    (∃ q ∈ a, p = (q.1, q.2, (lookupKey q.1 b).getD db)) ∨
      (∃ q ∈ b, lookupKey q.1 a = none ∧ p = (q.1, da, q.2)) := by
  simp only [outerMerge, List.mem_append] at hp
  rcases hp with h | h
  · obtain ⟨q, hq, hqe⟩ := List.mem_map.mp h
    exact Or.inl ⟨q, hq, hqe.symm⟩
  · obtain ⟨q, hq, hqe⟩ := List.mem_map.mp h
    obtain ⟨hqb, hqn⟩ := List.mem_filter.mp hq
    refine Or.inr ⟨q, hqb, ?_, hqe.symm⟩
    rcases hn : lookupKey q.1 a with _ | v
    · rfl
    · rw [hn] at hqn
      simp at hqn

/-! Claim theorems. -/

/-- C3: classify_district (insight_7) assigns labels by strict-inequality thresholds
on the DBDI ratio: ratio > 5/2 gives Cluster A, ratio < 1/5 gives Cluster B, and every
other ratio — the boundary values 5/2 and 1/5 included — gives Cluster C; every row of
the master table carries classify_district of its DBDI as its Cluster. -/
theorem classify_district_thresholds :
    (∀ ratio : ℚ,
      (classify_district ratio = "Cluster A: Hyper-Correction (Identity Anxiety)" ↔
        5 / 2 < ratio) ∧
      (classify_district ratio = "Cluster B: Digital Dormancy (Passive Compliance)" ↔
        ratio < 1 / 5) ∧
      (classify_district ratio = "Cluster C: Balanced Economy" ↔
        1 / 5 ≤ ratio ∧ ratio ≤ 5 / 2)) ∧
    classify_district (5 / 2) = "Cluster C: Balanced Economy" ∧
    classify_district (1 / 5) = "Cluster C: Balanced Economy" ∧
    ∀ (bio : List BioRow7) (demo : List DemoRow7) (enrol : List EnrolRow7),
      ∀ r ∈ master7 bio demo enrol, r.Cluster = classify_district r.DBDI := by
  refine ⟨?_,
    by rw [classify_district, if_neg (lt_irrefl _), if_neg (by norm_num)],
    by rw [classify_district, if_neg (by norm_num), if_neg (lt_irrefl _)], ?_⟩
  · intro ratio
    by_cases h1 : 5 / 2 < ratio
    · have h2 : ¬ ratio < 1 / 5 := by
        intro hc
        have hd : (1 : ℚ) / 5 < 5 / 2 := by norm_num
        linarith
      rw [classify_district, if_pos h1]
      exact ⟨iff_of_true rfl h1, iff_of_false (by decide) h2,
        iff_of_false (by decide) (fun hc => absurd h1 (not_lt.mpr hc.2))⟩
    · by_cases h2 : ratio < 1 / 5
      · rw [classify_district, if_neg h1, if_pos h2]
        exact ⟨iff_of_false (by decide) h1, iff_of_true rfl h2,
          iff_of_false (by decide) (fun hc => absurd h2 (not_lt.mpr hc.1))⟩
      · rw [classify_district, if_neg h1, if_neg h2]
        exact ⟨iff_of_false (by decide) h1, iff_of_false (by decide) h2,
          iff_of_true rfl ⟨not_lt.mp h2, not_lt.mp h1⟩⟩
  · intro bio demo enrol r hr
    obtain ⟨p, hp, rfl⟩ := List.mem_map.mp hr
    rfl

/-- C3 witness: a concrete master table (one district, seven adult demographic
updates, zero adult biometric updates, so DBDI = 7) whose row is classified by
classify_district of its DBDI. -/
theorem classify_district_thresholds_witness :
    (w7rowA ∈ master7 [] [⟨"S", "D", 0, 7⟩] []) ∧
    w7rowA.Cluster = classify_district w7rowA.DBDI := by
  have hm : master7 [] [⟨"S", "D", 0, 7⟩] [] = [w7rowA] := by
    norm_num [master7, merged7, outerMerge, bio_grp, demo_grp, enrol_grp, groupBySum,
      groupInsert, lookupKey, replace0With1, classify_district, w7rowA]
  have hmem : w7rowA ∈ master7 [] [⟨"S", "D", 0, 7⟩] [] := by
    rw [hm]
    exact List.mem_singleton_self _
  exact ⟨hmem, classify_district_thresholds.2.2.2 [] [⟨"S", "D", 0, 7⟩] [] _ hmem⟩

/-- C5: two runs of the pipeline on the identical master table differ only in the
ambient entropy, which the fixed random_state = 42 discards, so the outputs — in
particular the cluster-id and Risk_Profile columns — are identical. -/
theorem pipeline_deterministic (kmeans : Nat → List (ℚ × ℚ) → List Nat)
    (e1 e2 : Nat) (enrol : List EnrolRow) (bio : List BioRow) (demo : List DemoRow) :
    perform_cluster_analysis kmeans e1 (masterI6 enrol bio demo) =
      perform_cluster_analysis kmeans e2 (masterI6 enrol bio demo) ∧
    (perform_cluster_analysis kmeans e1 (masterI6 enrol bio demo)).map
        AnalyzedRow.cluster =
      (perform_cluster_analysis kmeans e2 (masterI6 enrol bio demo)).map
        AnalyzedRow.cluster ∧
    (perform_cluster_analysis kmeans e1 (masterI6 enrol bio demo)).map
        AnalyzedRow.Risk_Profile =
      (perform_cluster_analysis kmeans e2 (masterI6 enrol bio demo)).map
        AnalyzedRow.Risk_Profile :=
  ⟨rfl, rfl, rfl⟩

/-- C8: both ratio denominators are guarded: insight_6's update_ratio denominator
total_enrolments + 1 is strictly positive (so the ratio satisfies its defining
equation), and every insight_7 master row stores a strictly positive bio_age_17_
after the replace(0,1) guard, so the DBDI denominator is never zero. -/
theorem guarded_denominators :
    (∀ r : MasterRow6, (0 : ℚ) < (r.total_enrolments : ℚ) + 1 ∧
      update_ratio r * ((r.total_enrolments : ℚ) + 1) = (r.total_updates : ℚ)) ∧
    ∀ (bio : List BioRow7) (demo : List DemoRow7) (enrol : List EnrolRow7),
      ∀ r ∈ master7 bio demo enrol, 0 < r.bio_age_17_ ∧ (r.bio_age_17_ : ℚ) ≠ 0 := by
  constructor
  · intro r
    have hpos : (0 : ℚ) < (r.total_enrolments : ℚ) + 1 := by positivity
    exact ⟨hpos, div_mul_cancel₀ _ (ne_of_gt hpos)⟩
  · intro bio demo enrol r hr
    obtain ⟨p, hp, rfl⟩ := List.mem_map.mp hr
    have hpos : 0 < replace0With1 p.2.1.1.1 := by
      rw [replace0With1]
      split
      · exact Nat.one_pos
      · exact Nat.pos_of_ne_zero (by assumption)
    refine ⟨hpos, ?_⟩
    exact_mod_cast Nat.pos_iff_ne_zero.mp hpos

/-- C8 witness: a concrete master row whose district has zero biometric rows; the
stored denominator is still positive. -/
theorem guarded_denominators_witness :
    (w7rowB ∈ master7 [] [] [⟨"S", "D", 5⟩]) ∧
    0 < w7rowB.bio_age_17_ ∧ (w7rowB.bio_age_17_ : ℚ) ≠ 0 := by
  have hm : master7 [] [] [⟨"S", "D", 5⟩] = [w7rowB] := by
    norm_num [master7, merged7, outerMerge, bio_grp, demo_grp, enrol_grp, groupBySum,
      groupInsert, lookupKey, replace0With1, classify_district, w7rowB]
  have hmem : w7rowB ∈ master7 [] [] [⟨"S", "D", 5⟩] := by
    rw [hm]
    exact List.mem_singleton_self _
  exact ⟨hmem, guarded_denominators.2 [] [] [⟨"S", "D", 5⟩] _ hmem⟩

/-- C4: when the filtered table has fewer geographic units than k = 3, the ≤ 5-row
guard of main routes past the clustering entirely: the result is the fallback table in
which every row carries the sentinel Risk_Profile and no cluster id. -/
theorem insufficient_data_fallback (kmeans : Nat → List (ℚ × ℚ) → List Nat)
    (entropy : Nat) (df : List MasterRow6) (h : df.length < 3) :
    runAnalytics kmeans entropy df =
      df.map (fun r => ⟨r, none, none, "Insufficient Data for ML"⟩) ∧
    ∀ r ∈ runAnalytics kmeans entropy df,
      r.Risk_Profile = "Insufficient Data for ML" ∧ r.cluster = none := by
  have h5 : ¬ 5 < df.length := by omega
  constructor
  · rw [runAnalytics, if_neg h5]
  · intro r hr
    rw [runAnalytics, if_neg h5] at hr
    obtain ⟨x, _, rfl⟩ := List.mem_map.mp hr
    exact ⟨rfl, rfl⟩

/-- C4 witness: a one-row filtered table (1 < 3) is given the sentinel label. -/
theorem insufficient_data_fallback_witness :
    ([(⟨"S", "D", 1, 2, 3, 4, 7⟩ : MasterRow6)].length < 3) ∧
    runAnalytics (fun _ _ => []) 0 [(⟨"S", "D", 1, 2, 3, 4, 7⟩ : MasterRow6)] =
      [⟨⟨"S", "D", 1, 2, 3, 4, 7⟩, none, none, "Insufficient Data for ML"⟩] :=
  ⟨by decide,
    (insufficient_data_fallback (fun _ _ => []) 0 [⟨"S", "D", 1, 2, 3, 4, 7⟩]
      (by decide)).1⟩

/-- C10: insight_6 aggregates update totals by pincode alone and joins them into the
(state, district, pincode)-keyed enrolment table on pincode, so any two master rows
sharing a pincode carry identical total_bio_updates and total_demo_updates. -/
theorem pincode_collision_duplicates_updates (enrol : List EnrolRow)
    (bio : List BioRow) (demo : List DemoRow) (r1 r2 : MasterRow6)
    (h1 : r1 ∈ masterI6 enrol bio demo) (h2 : r2 ∈ masterI6 enrol bio demo)
    (hp : r1.pincode = r2.pincode) :
    r1.total_bio_updates = r2.total_bio_updates ∧
      r1.total_demo_updates = r2.total_demo_updates := by
  obtain ⟨p, _, rfl⟩ := List.mem_map.mp h1
  obtain ⟨q, _, rfl⟩ := List.mem_map.mp h2
  have hp' : p.1.2.2 = q.1.2.2 := hp
  constructor
  · show (lookupKey p.1.2.2 (bio_grouped bio)).getD 0 =
      (lookupKey q.1.2.2 (bio_grouped bio)).getD 0
    rw [hp']
  · show (lookupKey p.1.2.2 (demo_grouped demo)).getD 0 =
      (lookupKey q.1.2.2 (demo_grouped demo)).getD 0
    rw [hp']

/-- C10 witness: pincode 9 appears under two districts; both master rows receive the
full update totals of pincode 9. -/
theorem pincode_collision_duplicates_updates_witness :
    ((⟨"S", "D1", 9, 1, 7, 0, 7⟩ : MasterRow6) ∈
      masterI6 [⟨"S", "D1", 9, 1, 0, 0⟩, ⟨"S", "D2", 9, 2, 0, 0⟩] [⟨9, 3, 4⟩] []) ∧
    ((⟨"S", "D2", 9, 2, 7, 0, 7⟩ : MasterRow6) ∈
      masterI6 [⟨"S", "D1", 9, 1, 0, 0⟩, ⟨"S", "D2", 9, 2, 0, 0⟩] [⟨9, 3, 4⟩] []) ∧
    (⟨"S", "D1", 9, 1, 7, 0, 7⟩ : MasterRow6).total_bio_updates =
      (⟨"S", "D2", 9, 2, 7, 0, 7⟩ : MasterRow6).total_bio_updates ∧
    (⟨"S", "D1", 9, 1, 7, 0, 7⟩ : MasterRow6).total_demo_updates =
      (⟨"S", "D2", 9, 2, 7, 0, 7⟩ : MasterRow6).total_demo_updates :=
  ⟨by decide, by decide,
    pincode_collision_duplicates_updates
      [⟨"S", "D1", 9, 1, 0, 0⟩, ⟨"S", "D2", 9, 2, 0, 0⟩] [⟨9, 3, 4⟩] [] _ _
      (by decide) (by decide) (by decide)⟩

/-- C7 counterexample: the pipeline's result does NOT distinguish a missing input
from a valid zero-row table — insight_7's safe_read returns the same empty table for
a missing file as for a present-but-empty file, and insight_6's
load_and_process_data returns the same empty master table when every file is missing
as when every file is present but empty. -/
theorem missing_vs_empty_counterexample :
    safe_read (fun _ => (none : Option (List BioRow7))) "f" =
      safe_read (fun _ => some ([] : List BioRow7)) "f" ∧
    (load_and_process_data6 ⟨none, none, none⟩).1 =
      (load_and_process_data6 ⟨some [], some [], some []⟩).1 :=
  ⟨rfl, rfl⟩

/-- C7 amended: a missing input is coerced to the empty-table outcome, not surfaced
distinctly in the result: safe_read maps a missing file to the empty table (and a
present file to its rows), and insight_6 returns an empty master table on any missing
file — the only distinction is the error-message side channel, not the returned
table. -/
theorem missing_input_coerced_to_empty :
    (∀ (R : Type) (fs : String → Option (List R)) (f : String),
      fs f = none → safe_read fs f = []) ∧
    (∀ (R : Type) (fs : String → Option (List R)) (f : String) (rows : List R),
      fs f = some rows → safe_read fs f = rows) ∧
    ∀ s : CsvSources6, s.enrolData = none ∨ s.bioData = none ∨ s.demoData = none →
      load_and_process_data6 s = ([], true) := by
  refine ⟨?_, ?_, ?_⟩
  · intro R fs f h
    rw [safe_read, h]
    rfl
  · intro R fs f rows h
    rw [safe_read, h]
    rfl
  · intro s h
    obtain ⟨e, b, d⟩ := s
    cases e <;> cases b <;> cases d <;> simp_all [load_and_process_data6]

/-- C7 amended witness: a file system with no files at all. -/
theorem missing_input_coerced_to_empty_witness :
    ((fun _ => (none : Option (List BioRow7))) "f" = none) ∧
    safe_read (fun _ => (none : Option (List BioRow7))) "f" = [] ∧
    load_and_process_data6 ⟨none, some [], some []⟩ = ([], true) :=
  ⟨rfl, missing_input_coerced_to_empty.1 BioRow7 (fun _ => none) "f" rfl,
    missing_input_coerced_to_empty.2.2 ⟨none, some [], some []⟩ (Or.inl rfl)⟩

/-- C6: the groupby-sum aggregation (groupBySum, as instantiated by enrol_grouped,
bio_grouped, demo_grouped, bio_grp, demo_grp and enrol_grp) yields exactly one output
row per distinct key present in the input — no key duplicated, no key omitted — and
the value stored under a key is the sum of the feature over exactly the input rows
sharing that key. -/
theorem aggregation_sum_invariant (K R V : Type) [DecidableEq K] [AddCommMonoid V]
    (key : R → K) (val : R → V) (rows : List R) :
    ((groupBySum key val rows).map Prod.fst).Nodup ∧
    (∀ k, k ∈ (groupBySum key val rows).map Prod.fst ↔ k ∈ rows.map key) ∧
    ∀ k, lookupKey k (groupBySum key val rows) =
      if k ∈ rows.map key then some (sumKey key val k rows) else none :=
  ⟨nodup_keys_groupBySum key val rows, fun k => mem_keys_groupBySum key val rows k,
    fun k => lookupKey_groupBySum key val rows k⟩

/-- C2 counterexample: insight_6's merge is a LEFT join on the enrolment side —
pincode 2, present in the biometric feature table, does not appear in the merged
master table, contradicting outer-join completeness for insight_6. -/
theorem left_join_drops_update_only_pincode :
    2 ∈ (bio_grouped [⟨2, 3, 4⟩]).map Prod.fst ∧
    (masterI6 [⟨"S", "D", 1, 0, 0, 10⟩] [⟨2, 3, 4⟩] []).map MasterRow6.pincode = [1] :=
  ⟨by decide, by decide⟩

/-- C2 amended: in insight_7 the merges are outer joins — every (state, district)
key present in any grouped input appears in the master table, and a key absent from a
category gets that category's columns zero-filled (for the biometric category the
stored bio_age_17_ is then 1, because the replace(0,1) guard overwrites the filled
zero).  In insight_6, however, the merges are left joins on the enrolment side: the
master table's keys are exactly the enrolment keys (update-only pincodes are
dropped), and enrolment keys missing from an update table get zero for that table's
column. -/
theorem merge_key_semantics :
    (∀ (bio : List BioRow7) (demo : List DemoRow7) (enrol : List EnrolRow7)
        (k : String × String),
      k ∈ (master7 bio demo enrol).map (fun r => (r.state, r.district)) ↔
        (k ∈ (bio_grp bio).map Prod.fst ∨ k ∈ (demo_grp demo).map Prod.fst ∨
          k ∈ (enrol_grp enrol).map Prod.fst)) ∧
    (∀ (bio : List BioRow7) (demo : List DemoRow7) (enrol : List EnrolRow7),
      ∀ r ∈ master7 bio demo enrol,
        ((r.state, r.district) ∉ (demo_grp demo).map Prod.fst →
          r.demo_age_17_ = 0 ∧ r.demo_age_5_17 = 0) ∧
        ((r.state, r.district) ∉ (enrol_grp enrol).map Prod.fst →
          r.age_18_greater = 0) ∧
        ((r.state, r.district) ∉ (bio_grp bio).map Prod.fst →
          r.bio_age_5_17 = 0 ∧ r.bio_age_17_ = 1)) ∧
    ∀ (enrol : List EnrolRow) (bio : List BioRow) (demo : List DemoRow),
      ((masterI6 enrol bio demo).map MasterRow6.pincode =
        (enrol_grouped enrol).map (fun p => p.1.2.2)) ∧
      ∀ r ∈ masterI6 enrol bio demo,
        (r.pincode ∉ (bio_grouped bio).map Prod.fst → r.total_bio_updates = 0) ∧
        (r.pincode ∉ (demo_grouped demo).map Prod.fst → r.total_demo_updates = 0) := by
  refine ⟨?_, ?_, ?_⟩
  · intro bio demo enrol k
    have hmap : (master7 bio demo enrol).map (fun r => (r.state, r.district)) =
        (merged7 bio demo enrol).map Prod.fst := by
      rw [master7, List.map_map]
      rfl
    rw [hmap, merged7, mem_keys_outerMerge, mem_keys_outerMerge]
    tauto
  · intro bio demo enrol r hr
    obtain ⟨p, hp, rfl⟩ := List.mem_map.mp hr
    have hfill := outerMerge_fill (outerMerge (bio_grp bio) (demo_grp demo) (0, 0)
      (0, 0)) (enrol_grp enrol) ((0, 0), (0, 0)) 0 hp
    refine ⟨?_, ?_, ?_⟩
    · intro hd
      rcases mem_outerMerge_cases _ _ _ _ hp with ⟨q, hq, hpe⟩ | ⟨q, hq, _, hpe⟩
      · have hqfill := outerMerge_fill _ _ _ _ hq
        have hp1 : p.1 = q.1 := by rw [hpe]
        have h2 : q.2.2 = (0, 0) := hqfill.1 (by rw [← hp1]; exact hd)
        have hp2 : p.2.1 = q.2 := by rw [hpe]
        constructor
        · show p.2.1.2.1 = 0
          rw [hp2, h2]
        · show p.2.1.2.2 = 0
          rw [hp2, h2]
      · constructor
        · show p.2.1.2.1 = 0
          rw [hpe]
        · show p.2.1.2.2 = 0
          rw [hpe]
    · intro he
      show p.2.2 = 0
      exact hfill.1 he
    · intro hb
      rcases mem_outerMerge_cases _ _ _ _ hp with ⟨q, hq, hpe⟩ | ⟨q, hq, _, hpe⟩
      · have hqfill := outerMerge_fill _ _ _ _ hq
        have hp1 : p.1 = q.1 := by rw [hpe]
        have h2 : q.2.1 = (0, 0) := hqfill.2 (by rw [← hp1]; exact hb)
        have hp2 : p.2.1 = q.2 := by rw [hpe]
        constructor
        · show p.2.1.1.2 = 0
          rw [hp2, h2]
        · show replace0With1 p.2.1.1.1 = 1
          rw [hp2, h2]
          rfl
      · constructor
        · show p.2.1.1.2 = 0
          rw [hpe]
        · show replace0With1 p.2.1.1.1 = 1
          rw [hpe]
          rfl
  · intro enrol bio demo
    constructor
    · rw [masterI6, List.map_map]
      rfl
    · intro r hr
      obtain ⟨p, hp, rfl⟩ := List.mem_map.mp hr
      constructor
      · intro hb
        show (lookupKey p.1.2.2 (bio_grouped bio)).getD 0 = 0
        rw [lookupKey_eq_none_iff.mpr hb]
        rfl
      · intro hd
        show (lookupKey p.1.2.2 (demo_grouped demo)).getD 0 = 0
        rw [lookupKey_eq_none_iff.mpr hd]
        rfl

/-- C2 amended witness: a district with only biometric activity; its key is absent
from the demographic table and its demographic columns are zero in the master
table. -/
theorem merge_key_semantics_witness :
    (w7rowC ∈ master7 [⟨"S", "D", 1, 2⟩] [] []) ∧
    ((w7rowC.state, w7rowC.district) ∉
      ((demo_grp ([] : List DemoRow7)).map Prod.fst)) ∧
    w7rowC.demo_age_17_ = 0 ∧ w7rowC.demo_age_5_17 = 0 := by
  have hm : master7 [⟨"S", "D", 1, 2⟩] [] [] = [w7rowC] := by
    norm_num [master7, merged7, outerMerge, bio_grp, demo_grp, enrol_grp, groupBySum,
      groupInsert, lookupKey, replace0With1, classify_district, w7rowC]
  have hmem : w7rowC ∈ master7 [⟨"S", "D", 1, 2⟩] [] [] := by
    rw [hm]
    exact List.mem_singleton_self _
  have habs : (w7rowC.state, w7rowC.district) ∉
      ((demo_grp ([] : List DemoRow7)).map Prod.fst) := by
    simp [demo_grp, groupBySum]
  exact ⟨hmem, habs,
    (merge_key_semantics.2.1 [⟨"S", "D", 1, 2⟩] [] [] w7rowC hmem).1 habs⟩

/-- C9: when a district's summed adult biometric update count is zero, insight_7's
zero-denominator guard overwrites the aggregated data itself: the master row reports
bio_age_17_ = 1 (not 0), its DBDI equals demo_age_17_ divided by 1, i.e.
demo_age_17_ itself, and Total_Activity includes the phantom 1. -/
theorem zero_bio_overwritten (bio : List BioRow7) (demo : List DemoRow7)
    (enrol : List EnrolRow7) (r : MasterRow7) (hr : r ∈ master7 bio demo enrol)
    (h0 : sumKey (fun x : BioRow7 => (x.state, x.district))
      (fun x => x.bio_age_17_) (r.state, r.district) bio = 0) :
    r.bio_age_17_ = 1 ∧ r.DBDI = (r.demo_age_17_ : ℚ) ∧
      r.Total_Activity = r.demo_age_17_ + 1 := by
  obtain ⟨p, hp, rfl⟩ := List.mem_map.mp hr
  have hbio : p.2.1.1.1 = 0 := by
    rcases mem_outerMerge_cases _ _ _ _ hp with ⟨q, hq, hpe⟩ | ⟨q, _, _, hpe⟩
    · rcases mem_outerMerge_cases _ _ _ _ hq with ⟨u, hu, hqe⟩ | ⟨u, _, _, hqe⟩
      · have hu2 : u.2 = sumKey (fun x : BioRow7 => (x.state, x.district))
            (fun x => (x.bio_age_17_, x.bio_age_5_17)) u.1 bio :=
          mem_groupBySum_eq_sumKey hu
        have hp1 : p.1 = u.1 := by rw [hpe, hqe]
        have h0' : sumKey (fun x : BioRow7 => (x.state, x.district))
            (fun x => x.bio_age_17_) u.1 bio = 0 := by
          rw [← hp1]
          exact h0
        have hpq : p.2.1.1 = u.2 := by rw [hpe, hqe]
        rw [show p.2.1.1.1 = (p.2.1.1).1 from rfl, hpq, hu2,
          sumKey_pair_fst (fun x : BioRow7 => (x.state, x.district))
            (fun x => x.bio_age_17_) (fun x => x.bio_age_5_17) u.1 bio]
        exact h0'
      · rw [hpe, hqe]
    · rw [hpe]
  refine ⟨?_, ?_, ?_⟩
  · show replace0With1 p.2.1.1.1 = 1
    rw [hbio]
    rfl
  · show ((p.2.1.2.1 : Nat) : ℚ) / ((replace0With1 p.2.1.1.1 : Nat) : ℚ) =
      ((p.2.1.2.1 : Nat) : ℚ)
    rw [hbio]
    norm_num [replace0With1]
  · show p.2.1.2.1 + replace0With1 p.2.1.1.1 = p.2.1.2.1 + 1
    rw [hbio]
    rfl

/-- C9 witness: a district with four minor-age and zero adult biometric updates and
six adult demographic updates; its master row reports bio_age_17_ = 1 and
DBDI = 6. -/
theorem zero_bio_overwritten_witness :
    (w7rowD ∈ master7 [⟨"S", "D", 4, 0⟩] [⟨"S", "D", 0, 6⟩] []) ∧
    sumKey (fun x : BioRow7 => (x.state, x.district)) (fun x => x.bio_age_17_)
      (w7rowD.state, w7rowD.district) [⟨"S", "D", 4, 0⟩] = 0 ∧
    w7rowD.bio_age_17_ = 1 ∧ w7rowD.DBDI = (w7rowD.demo_age_17_ : ℚ) ∧
      w7rowD.Total_Activity = w7rowD.demo_age_17_ + 1 := by
  have hm : master7 [⟨"S", "D", 4, 0⟩] [⟨"S", "D", 0, 6⟩] [] = [w7rowD] := by
    norm_num [master7, merged7, outerMerge, bio_grp, demo_grp, enrol_grp, groupBySum,
      groupInsert, lookupKey, replace0With1, classify_district, w7rowD]
  have hmem : w7rowD ∈ master7 [⟨"S", "D", 4, 0⟩] [⟨"S", "D", 0, 6⟩] [] := by
    rw [hm]
    exact List.mem_singleton_self _
  have h0 : sumKey (fun x : BioRow7 => (x.state, x.district)) (fun x => x.bio_age_17_)
      (w7rowD.state, w7rowD.district) [⟨"S", "D", 4, 0⟩] = 0 := by decide
  exact ⟨hmem, h0,
    zero_bio_overwritten [⟨"S", "D", 4, 0⟩] [⟨"S", "D", 0, 6⟩] [] w7rowD hmem h0⟩

/-- C1: rank-based labeling of perform_cluster_analysis — when exactly three cluster
ids occur in the clustered table, a cluster whose mean update_ratio is strictly
smaller than another's receives a label strictly earlier in the configured riskLabels
ordering; in particular a strictly-lowest-mean cluster is labeled
"High Risk (Ghost Village)" and a strictly-highest-mean cluster
"Low Risk (Normal Activity)". -/
theorem label_rank_consistency (rows : List ClusteredRow) (A B : Nat)
    (hA : A ∈ clusterIds rows) (hB : B ∈ clusterIds rows)
    (h3 : (clusterIds rows).length = 3)
    (hlt : clusterMean rows A < clusterMean rows B) :
    labelPos (riskOf rows A) < labelPos (riskOf rows B) ∧
    ((∀ C ∈ clusterIds rows, C ≠ A → clusterMean rows A < clusterMean rows C) →
      riskOf rows A = "High Risk (Ghost Village)") ∧
    ((∀ C ∈ clusterIds rows, C ≠ B → clusterMean rows C < clusterMean rows B) →
      riskOf rows B = "Low Risk (Normal Activity)") := by
  have hperm : List.Perm (sortedClusters rows) (clusterIds rows) :=
    List.perm_insertionSort (clusterRel rows) (clusterIds rows)
  have hlen : (sortedClusters rows).length = 3 := by
    rw [hperm.length_eq, h3]
  obtain ⟨a, b, c, hsc⟩ := List.length_eq_three.mp hlen
  have hsorted : List.Sorted (clusterRel rows) (sortedClusters rows) :=
    List.sorted_insertionSort (clusterRel rows) (clusterIds rows)
  have hnd : (sortedClusters rows).Nodup :=
    hperm.nodup_iff.mpr (List.nodup_dedup _)
  rw [hsc] at hsorted hnd
  obtain ⟨hra, hsorted2⟩ := List.sorted_cons.mp hsorted
  obtain ⟨hrb, _⟩ := List.sorted_cons.mp hsorted2
  have hrab : clusterRel rows a b := hra b (by simp)
  have hrac : clusterRel rows a c := hra c (by simp)
  have hrbc : clusterRel rows b c := hrb c (by simp)
  rw [List.nodup_cons, List.nodup_cons] at hnd
  have hab : a ≠ b := fun h => hnd.1 (by rw [h]; simp)
  have hac : a ≠ c := fun h => hnd.1 (by rw [h]; simp)
  have hbc : b ≠ c := fun h => hnd.2.1 (by rw [h]; simp)
  have hmem : ∀ x, x ∈ clusterIds rows ↔ x ∈ [a, b, c] := fun x => by
    rw [← hsc]
    exact hperm.mem_iff.symm
  have hla : riskOf rows a = "High Risk (Ghost Village)" := by
    simp [riskOf, risk_mapping, hsc, riskLabels, lookupKey]
  have hlb : riskOf rows b = "Medium Risk (Monitor)" := by
    simp [riskOf, risk_mapping, hsc, riskLabels, lookupKey, Ne.symm hab]
  have hlc : riskOf rows c = "Low Risk (Normal Activity)" := by
    simp [riskOf, risk_mapping, hsc, riskLabels, lookupKey, Ne.symm hac, Ne.symm hbc]
  have contra : ∀ {x y : Nat}, clusterRel rows x y →
      clusterMean rows y < clusterMean rows x → False := by
    intro x y h hyx
    have h' : clusterMean rows x < clusterMean rows y ∨
        (clusterMean rows x = clusterMean rows y ∧ x ≤ y) := h
    rcases h' with h1 | ⟨h1, _⟩
    · exact absurd h1 (lt_asymm hyx)
    · rw [h1] at hyx
      exact lt_irrefl _ hyx
  refine ⟨?_, ?_, ?_⟩
  · have hA3 : A = a ∨ A = b ∨ A = c := by simpa using (hmem A).mp hA
    have hB3 : B = a ∨ B = b ∨ B = c := by simpa using (hmem B).mp hB
    rcases hA3 with rfl | rfl | rfl <;> rcases hB3 with rfl | rfl | rfl
    · exact absurd hlt (lt_irrefl _)
    · rw [hla, hlb]
      decide
    · rw [hla, hlc]
      decide
    · exact (contra hrab hlt).elim
    · exact absurd hlt (lt_irrefl _)
    · rw [hlb, hlc]
      decide
    · exact (contra hrac hlt).elim
    · exact (contra hrbc hlt).elim
    · exact absurd hlt (lt_irrefl _)
  · intro hmin
    have hA3 : A = a ∨ A = b ∨ A = c := by simpa using (hmem A).mp hA
    have hma : a ∈ clusterIds rows := (hmem a).mpr (by simp)
    rcases hA3 with rfl | rfl | rfl
    · exact hla
    · exact (contra hrab (hmin a hma hab)).elim
    · exact (contra hrac (hmin a hma hac)).elim
  · intro hmax
    have hB3 : B = a ∨ B = b ∨ B = c := by simpa using (hmem B).mp hB
    have hmc : c ∈ clusterIds rows := (hmem c).mpr (by simp)
    rcases hB3 with rfl | rfl | rfl
    · exact (contra hrac (hmax c hmc (Ne.symm hac))).elim
    · exact (contra hrbc (hmax c hmc (Ne.symm hbc))).elim
    · exact hlc

/-- C1 witness: three singleton clusters with means 0, 1 and 3; cluster 0's label
comes strictly before cluster 1's in the configured ordering. -/
theorem label_rank_consistency_witness :
    (0 ∈ clusterIds w1rows) ∧ (1 ∈ clusterIds w1rows) ∧
    (clusterIds w1rows).length = 3 ∧
    clusterMean w1rows 0 < clusterMean w1rows 1 ∧
    labelPos (riskOf w1rows 0) < labelPos (riskOf w1rows 1) := by
  have hm : clusterMean w1rows 0 < clusterMean w1rows 1 := by
    norm_num [clusterMean, w1rows, update_ratio]
  exact ⟨by decide, by decide, by decide, hm,
    (label_rank_consistency w1rows 0 1 (by decide) (by decide) (by decide) hm).1⟩

end Uidai
